import Mathlib

/-!
Verification development for the UDP chat router of this repository
(`udpchat_pkg/udpchat/server.py`, `udpchat/protocol.py`,
`udpchat_pkg/udpchat/packet_spec.py`).

Modelling conventions:
* A Python `dict` is an insertion-ordered association list: assignment to an
  existing key updates the value in place, assignment to a fresh key appends.
* A Python `set` is a duplicate-free list; `add` appends when absent,
  `discard` removes the element.
* Packet field values are modelled as strings: every packet the repository
  builds (`make_packet` call sites) carries only string fields.
* An outbound transport send is modelled by a parameter
  `ok : Endpoint → Bool`; `ok a = false` means `socket.sendto` raises
  `OSError` for destination `a`, which the code handles by calling
  `_disconnect(a)` inline.
* A handler returning `none` models an uncaught Python exception (such as
  the `KeyError` raised by `self.clients[addr]` when `addr` is not
  registered); such an exception propagates out of `_process_loop` and
  terminates the router loop.
* A raw datagram is a list of bytes (naturals below 256); `data.decode()`
  is modelled by `utf8Decode`, whose `none` is `UnicodeDecodeError` — an
  exception the router's `except json.JSONDecodeError` clause does not
  catch, so it too terminates the router loop. The same holds for the
  `AttributeError`/`TypeError` that `_validate_packet` raises on decoded
  documents that are not flat string-field objects; dispatch after a
  successful decode-and-validate is modelled by `processValid`.
-/

/-- Transport address `(host, port)`; equality is exact value equality. -/
structure Endpoint where
  host : String
  port : Nat
deriving DecidableEq, Repr

/-- `ClientInfo` dataclass from `udpchat/protocol.py`: `{addr, name}`. -/
structure ClientInfo where
  addr : Endpoint
  name : String
deriving DecidableEq, Repr

/-- A decoded packet: a JSON object with string fields, as an
insertion-ordered association list (Python `dict`). -/
abbrev Packet := List (String × String)

/-- `d.get(k)` / `d[k]` lookup on an association-list dict. -/
def dictLookup {κ ν : Type} [DecidableEq κ] : List (κ × ν) → κ → Option ν
  | [], _ => none
  | (k2, v) :: rest, k => if k2 = k then some v else dictLookup rest k

/-- `d[k] = v` on an association-list dict: update in place when the key
exists, append otherwise (CPython insertion-order semantics). -/
def dictSet {κ ν : Type} [DecidableEq κ] : List (κ × ν) → κ → ν → List (κ × ν)
  | [], k, v => [(k, v)]
  | (k2, v2) :: rest, k, v =>
      if k2 = k then (k, v) :: rest else (k2, v2) :: dictSet rest k v

/-- `d.pop(k, None)`: the removed value (if any) and the remaining dict. -/
def dictPop {κ ν : Type} [DecidableEq κ] : List (κ × ν) → κ → Option ν × List (κ × ν)
  | [], _ => (none, [])
  | (k2, v) :: rest, k =>
      if k2 = k then (some v, rest)
      else
        let r := dictPop rest k
        (r.1, (k2, v) :: r.2)

/-- Python `set.add`: append when absent. -/
def setAdd {α : Type} [DecidableEq α] (s : List α) (a : α) : List α :=
  if a ∈ s then s else s ++ [a]

/-- Python `set.discard`: remove the element. -/
def setDiscard {α : Type} [DecidableEq α] (s : List α) (a : α) : List α :=
  s.filter (fun b => b ≠ a)

/-- The mutable server state of `UDPChatServer`:
`clients : addr → ClientInfo`, `rooms : room → set addr`,
`pending_inv : addr → set room`. -/
structure SState where
  clients : List (Endpoint × ClientInfo)
  rooms : List (String × List Endpoint)
  pending : List (Endpoint × List String)
deriving DecidableEq, Repr

/- Packet-type identifiers from `udpchat/protocol.py`. -/

def JOIN : String := "join"

def PUBLIC_MSG : String := "msg"

def QUIT : String := "quit"

def CREATE_ROOM : String := "create_room"

def INVITE : String := "invite"

def ACCEPT_INV : String := "accept_invite"

def ROOM_MSG : String := "room_msg"

def SYSTEM_MSG : String := "sys"

/-- Required-field table from `udpchat_pkg/udpchat/packet_spec.py`
(`EXPECTED_FIELDS_BY_TYPE`). -/
def EXPECTED_FIELDS_BY_TYPE : List (String × List String) :=
  [(JOIN, ["type", "name"]),
   (PUBLIC_MSG, ["type", "name", "text"]),
   (QUIT, ["type", "name"]),
   (CREATE_ROOM, ["type", "name", "room"]),
   (INVITE, ["type", "room", "from", "to"]),
   (ACCEPT_INV, ["type", "name", "room"]),
   (ROOM_MSG, ["type", "room", "from", "text"]),
   (SYSTEM_MSG, ["type", "text"])]

/-- `UDPChatServer._validate_packet`: the declared type must be known and
its required field set must be a subset of the packet keys. -/
def validatePacket (pkt : Packet) : Bool :=
  match dictLookup pkt "type" with
  | none => false
  | some t =>
      match dictLookup EXPECTED_FIELDS_BY_TYPE t with
      | none => false
      | some req => req.all (fun f => (dictLookup pkt f).isSome)

/-- Record-level `make_packet`: inject the discriminator as field `type`
(`payload["type"] = ptype`). Serialisation to bytes is `jsonDumps` below. -/
def mkPacketRec (t : String) (payload : Packet) : Packet :=
  dictSet payload "type" t

/-- An emitted transport send: the packet record and its destination. -/
abbrev Sent := Packet × Endpoint

/-- The apostrophe character, used in the server's system-message texts. -/
def apos : String := (Char.ofNat 39).toString

/-- `UDPChatServer._disconnect`: pop the client; when it existed, discard
the address from every room's member set. `pending_inv` is untouched. -/
def disconnect (s : SState) (a : Endpoint) : SState :=
  match dictPop s.clients a with
  | (none, _) => s
  | (some _, clients2) =>
      { clients := clients2
        rooms := s.rooms.map (fun rm => (rm.1, setDiscard rm.2 a))
        pending := s.pending }

/-- `UDPChatServer._send`: on transport success emit the packet, on
`OSError` run `_disconnect(addr)` and emit nothing. -/
def sendStep (ok : Endpoint → Bool) (p : Packet) (a : Endpoint) (s : SState) :
    SState × List Sent :=
  if ok a then (s, [(p, a)]) else (disconnect s a, [])

/-- Send to each target in order (skipping the excluded endpoint), threading
the state through per-destination failures. -/
def sendToAll (ok : Endpoint → Bool) (p : Packet) (exclude : Option Endpoint) :
    List Endpoint → SState → SState × List Sent
  | [], s => (s, [])
  | a :: rest, s =>
      if exclude = some a then sendToAll ok p exclude rest s
      else
        let r1 := sendStep ok p a s
        let r2 := sendToAll ok p exclude rest r1.1
        (r2.1, r1.2 ++ r2.2)

/-- `UDPChatServer._broadcast`: iterate a snapshot of the client keys
(`list(self.clients)`), sending to every one except `exclude`. -/
def broadcast (ok : Endpoint → Bool) (s : SState) (p : Packet)
    (exclude : Option Endpoint) : SState × List Sent :=
  sendToAll ok p exclude (s.clients.map Prod.fst) s

/-- `UDPChatServer._handle_join`: `clients[addr] = ClientInfo(addr, name)`. -/
def handleJoin (s : SState) (pkt : Packet) (addr : Endpoint) : SState :=
  { s with clients :=
      dictSet s.clients addr ⟨addr, (dictLookup pkt "name").getD "?"⟩ }

/-- `UDPChatServer._handle_public`: unknown senders are dropped; otherwise
broadcast `msg{name, text}` to everyone but the sender. -/
def handlePublic (ok : Endpoint → Bool) (s : SState) (pkt : Packet)
    (addr : Endpoint) : SState × List Sent :=
  match dictLookup s.clients addr with
  | none => (s, [])
  | some c =>
      broadcast ok s
        (mkPacketRec PUBLIC_MSG
          [("name", c.name), ("text", (dictLookup pkt "text").getD "")])
        (some addr)

/-- Acknowledgement text of `_handle_create`. -/
def createAckText (room : String) : String :=
  "Room " ++ apos ++ room ++ apos ++ " created"

/-- `UDPChatServer._handle_create`: a falsy room value returns silently;
otherwise `rooms.setdefault(room, set()).add(addr)`, then the log line
indexes `self.clients[addr]` (KeyError — `none` — when unregistered),
then a `sys` acknowledgement is sent to the caller. -/
def handleCreate (ok : Endpoint → Bool) (s : SState) (pkt : Packet)
    (addr : Endpoint) : Option (SState × List Sent) :=
  match dictLookup pkt "room" with
  | none => some (s, [])
  | some room =>
      if room = "" then some (s, [])
      else
        let s1 : SState :=
          { s with rooms :=
              dictSet s.rooms room (setAdd ((dictLookup s.rooms room).getD []) addr) }
        match dictLookup s1.clients addr with
        | none => none
        | some _ =>
            some (sendStep ok (mkPacketRec SYSTEM_MSG [("text", createAckText room)])
              addr s1)

/-- Error text shared by `_handle_invite` and `_handle_room_msg`. -/
def notInRoomText : String := "You are not in that room"

/-- Error text of `_handle_invite` when the target name resolves to no client. -/
def userNotFoundText : String := "User not found"

/-- `UDPChatServer._handle_invite`: membership check, then first-match name
resolution over the client registry, then the pending-invitation record,
then the log/packet line indexes `self.clients[addr]` (KeyError — `none` —
when unregistered), then the invite packet is sent to the target. -/
def handleInvite (ok : Endpoint → Bool) (s : SState) (pkt : Packet)
    (addr : Endpoint) : Option (SState × List Sent) :=
  let roomField := dictLookup pkt "room"
  let notMember :=
    match roomField with
    | none => true
    | some room =>
        match dictLookup s.rooms room with
        | none => true
        | some ms => !(addr ∈ ms : Bool)
  if notMember then
    some (sendStep ok (mkPacketRec SYSTEM_MSG [("text", notInRoomText)]) addr s)
  else
    match roomField with
    | none => some (s, [])
    | some room =>
        let target := (s.clients.find? (fun p => some p.2.name = dictLookup pkt "to")).map Prod.fst
        match target with
        | none =>
            some (sendStep ok (mkPacketRec SYSTEM_MSG [("text", userNotFoundText)]) addr s)
        | some ta =>
            let s1 : SState :=
              { s with pending :=
                  dictSet s.pending ta (setAdd ((dictLookup s.pending ta).getD []) room) }
            match dictLookup s1.clients addr with
            | none => none
            | some c =>
                some (sendStep ok
                  (mkPacketRec INVITE
                    [("room", room), ("from", c.name),
                     ("to", (dictLookup pkt "to").getD "")])
                  ta s1)

/-- Acknowledgement text of `_handle_accept`. -/
def joinedAckText (room : String) : String :=
  "Joined room " ++ apos ++ room ++ apos

/-- Error text of `_handle_accept`. -/
def noInviteText : String := "No invite for that room"

/-- `UDPChatServer._handle_accept`: when the room is pending for the sender,
add the sender to the room, discard the pending entry and acknowledge;
otherwise reply with a `sys` error. -/
def handleAccept (ok : Endpoint → Bool) (s : SState) (pkt : Packet)
    (addr : Endpoint) : SState × List Sent :=
  let pend := (dictLookup s.pending addr).getD []
  let inPend :=
    match dictLookup pkt "room" with
    | none => false
    | some room => (room ∈ pend : Bool)
  match dictLookup pkt "room", inPend with
  | some room, true =>
      let s1 : SState :=
        { s with
          rooms := dictSet s.rooms room (setAdd ((dictLookup s.rooms room).getD []) addr)
          pending := dictSet s.pending addr (setDiscard pend room) }
      sendStep ok (mkPacketRec SYSTEM_MSG [("text", joinedAckText room)]) addr s1
  | _, _ =>
      sendStep ok (mkPacketRec SYSTEM_MSG [("text", noInviteText)]) addr s

/-- `UDPChatServer._handle_room_msg`: non-members (and unknown rooms) get a
`sys` error; otherwise the sender's name is read from `self.clients[addr]`
(KeyError — `none` — when unregistered) and `room_msg{room, text, from}` is
sent to a snapshot of the member set, excluding the sender. -/
def handleRoomMsg (ok : Endpoint → Bool) (s : SState) (pkt : Packet)
    (addr : Endpoint) : Option (SState × List Sent) :=
  let roomField := dictLookup pkt "room"
  let notMember :=
    match roomField with
    | none => true
    | some room =>
        match dictLookup s.rooms room with
        | none => true
        | some ms => !(addr ∈ ms : Bool)
  if notMember then
    some (sendStep ok (mkPacketRec SYSTEM_MSG [("text", notInRoomText)]) addr s)
  else
    match roomField with
    | none => some (s, [])
    | some room =>
        match dictLookup s.clients addr with
        | none => none
        | some c =>
            some (sendToAll ok
              (mkPacketRec ROOM_MSG
                [("room", room), ("text", (dictLookup pkt "text").getD ""),
                 ("from", c.name)])
              (some addr) ((dictLookup s.rooms room).getD []) s)

/-- The dispatch of `_process_loop` on a decoded, validated packet:
one router step. `none` models an uncaught exception ending the loop;
unmatched types fall through with no effect. -/
def processValid (ok : Endpoint → Bool) (s : SState) (pkt : Packet)
    (addr : Endpoint) : Option (SState × List Sent) :=
  match dictLookup pkt "type" with
  | none => some (s, [])
  | some t =>
      if t = JOIN then some (handleJoin s pkt addr, [])
      else if t = PUBLIC_MSG then some (handlePublic ok s pkt addr)
      else if t = QUIT then some (disconnect s addr, [])
      else if t = CREATE_ROOM then handleCreate ok s pkt addr
      else if t = INVITE then handleInvite ok s pkt addr
      else if t = ACCEPT_INV then some (handleAccept ok s pkt addr)
      else if t = ROOM_MSG then handleRoomMsg ok s pkt addr
      else some (s, [])

/- --- Wire codec (`udpchat/protocol.py`: `make_packet`, `parse_packet`).
A datagram is a list of characters; `json.dumps` / `json.loads` are
modelled for the documents this protocol uses: one-level JSON objects
with string keys and string values. --- -/

/-- The double-quote character. -/
def qc : Char := Char.ofNat 34

/-- The backslash character. -/
def bsc : Char := Char.ofNat 92

/-- The left-brace character. -/
def lbc : Char := Char.ofNat 123

/-- The right-brace character. -/
def rbc : Char := Char.ofNat 125

/-- The colon character. -/
def clc : Char := Char.ofNat 58

/-- The comma character. -/
def cmc : Char := Char.ofNat 44

/-- The space character. -/
def spc : Char := Char.ofNat 32

/-- JSON string escaping of one character (quote and backslash). -/
def escChar (c : Char) : List Char :=
  if c = qc ∨ c = bsc then [bsc, c] else [c]

/-- JSON string-body escaping. -/
def escStr (s : String) : List Char :=
  s.data.flatMap escChar

/-- A JSON string literal: quote, escaped body, quote. -/
def dumpStr (s : String) : List Char :=
  qc :: escStr s ++ [qc]

/-- One `"key": "value"` item, with `json.dumps`'s default separators. -/
def dumpPair (p : String × String) : List Char :=
  dumpStr p.1 ++ [clc, spc] ++ dumpStr p.2

/-- The comma-separated items of an object body. -/
def dumpFields : Packet → List Char
  | [] => []
  | [p] => dumpPair p
  | p :: q :: rest => dumpPair p ++ [cmc, spc] ++ dumpFields (q :: rest)

/-- `json.dumps` of a flat string-field object. -/
def jsonDumps (fields : Packet) : List Char :=
  lbc :: dumpFields fields ++ [rbc]

/-- `make_packet(ptype, **payload)`: inject the type field, serialise. -/
def make_packet (t : String) (payload : Packet) : List Char :=
  jsonDumps (mkPacketRec t payload)

/-- JSON insignificant whitespace. -/
def isWsChar (c : Char) : Bool :=
  c = spc ∨ c = Char.ofNat 9 ∨ c = Char.ofNat 10 ∨ c = Char.ofNat 13

/-- Skip insignificant whitespace. -/
def skipWs : List Char → List Char
  | [] => []
  | c :: r => if isWsChar c then skipWs r else c :: r

/-- Parse a string-literal body up to the closing quote, undoing escapes. -/
def parseStrBody : List Char → Option (List Char × List Char)
  | [] => none
  | c :: r =>
      if c = qc then some ([], r)
      else if c = bsc then
        match r with
        | [] => none
        | d :: r2 =>
            if d = qc ∨ d = bsc then
              match parseStrBody r2 with
              | some (s, r3) => some (d :: s, r3)
              | none => none
            else none
      else
        match parseStrBody r with
        | some (s, r3) => some (c :: s, r3)
        | none => none

/-- Parse a string literal (leading whitespace allowed). -/
def parseStr (l : List Char) : Option (String × List Char) :=
  match skipWs l with
  | [] => none
  | c :: r =>
      if c = qc then
        match parseStrBody r with
        | some (s, r2) => some (⟨s⟩, r2)
        | none => none
      else none

/-- Parse the non-empty `"k": "v"` item list of an object body, up to and
including the closing brace. Fuel bounds the recursion depth. -/
def parsePairs : Nat → List Char → Option (Packet × List Char)
  | 0, _ => none
  | fuel + 1, l =>
      match parseStr l with
      | none => none
      | some (k, r1) =>
          match skipWs r1 with
          | [] => none
          | c :: r2 =>
              if c = clc then
                match parseStr r2 with
                | none => none
                | some (v, r3) =>
                    match skipWs r3 with
                    | [] => none
                    | d :: r4 =>
                        if d = cmc then
                          match parsePairs fuel r4 with
                          | some (ps, r5) => some ((k, v) :: ps, r5)
                          | none => none
                        else if d = rbc then some ([(k, v)], r4)
                        else none
              else none

/-- Build a Python dict from parsed key/value pairs in order
(`d[k] = v` for each, so a duplicate key keeps its first position and
last value, as `json.loads` does). -/
def collapsePairs (ps : Packet) : Packet :=
  ps.foldl (fun acc p => dictSet acc p.1 p.2) []

/-- `parse_packet` / `json.loads`, modelled on the protocol's own document
domain: a single flat object with string fields, whole input consumed up to
trailing whitespace — the exact image of `make_packet`, which is all the
codec encodes. Within that domain `none` is `json.JSONDecodeError`. The
real `json.loads` also accepts other JSON documents (non-object top levels,
non-string field values); those are not decode errors in Python but lead to
uncaught `AttributeError`/`TypeError` crashes further down in
`_validate_packet`, outside this codec model's scope. -/
def parse_packet (l : List Char) : Option Packet :=
  match skipWs l with
  | [] => none
  | c :: r =>
      if c = lbc then
        match skipWs r with
        | [] => none
        | d :: r2 =>
            if d = rbc then
              if (skipWs r2).isEmpty then some [] else none
            else
              match parsePairs l.length (d :: r2) with
              | some (ps, rest) =>
                  if (skipWs rest).isEmpty then some (collapsePairs ps) else none
              | none => none
      else none

/-- Strict UTF-8 decoding of a raw datagram, as Python's `data.decode()`
inside `parse_packet`: a datagram is a list of bytes (naturals below 256),
and `none` is `UnicodeDecodeError`. Continuation bytes are `0x80`–`0xBF`;
overlong encodings (`0xC0`/`0xC1`, and the tightened second-byte ranges
after `0xE0`/`0xF0`), surrogates (`0xED` `0xA0`–`0xBF`), code points above
`U+10FFFF` (`0xF4` second byte over `0x8F`, leads `0xF5`–`0xFF`) and
truncated sequences are rejected, exactly as the strict `utf-8` codec. -/
def utf8Decode : List Nat → Option (List Char)
  | [] => some []
  | b :: rest =>
      if b ≤ 0x7F then
        match utf8Decode rest with
        | some cs => some (Char.ofNat b :: cs)
        | none => none
      else if 0xC2 ≤ b ∧ b ≤ 0xDF then
        match rest with
        | b2 :: rest2 =>
            if 0x80 ≤ b2 ∧ b2 ≤ 0xBF then
              match utf8Decode rest2 with
              | some cs => some (Char.ofNat ((b - 0xC0) * 0x40 + (b2 - 0x80)) :: cs)
              | none => none
            else none
        | [] => none
      else if 0xE0 ≤ b ∧ b ≤ 0xEF then
        match rest with
        | b2 :: b3 :: rest3 =>
            if (if b = 0xE0 then 0xA0 ≤ b2 ∧ b2 ≤ 0xBF
                else if b = 0xED then 0x80 ≤ b2 ∧ b2 ≤ 0x9F
                else 0x80 ≤ b2 ∧ b2 ≤ 0xBF)
               ∧ 0x80 ≤ b3 ∧ b3 ≤ 0xBF then
              match utf8Decode rest3 with
              | some cs =>
                  some (Char.ofNat
                    ((b - 0xE0) * 0x1000 + (b2 - 0x80) * 0x40 + (b3 - 0x80)) :: cs)
              | none => none
            else none
        | _ => none
      else if 0xF0 ≤ b ∧ b ≤ 0xF4 then
        match rest with
        | b2 :: b3 :: b4 :: rest4 =>
            if (if b = 0xF0 then 0x90 ≤ b2 ∧ b2 ≤ 0xBF
                else if b = 0xF4 then 0x80 ≤ b2 ∧ b2 ≤ 0x8F
                else 0x80 ≤ b2 ∧ b2 ≤ 0xBF)
               ∧ 0x80 ≤ b3 ∧ b3 ≤ 0xBF ∧ 0x80 ≤ b4 ∧ b4 ≤ 0xBF then
              match utf8Decode rest4 with
              | some cs =>
                  some (Char.ofNat ((b - 0xF0) * 0x40000 + (b2 - 0x80) * 0x1000 +
                    (b3 - 0x80) * 0x40 + (b4 - 0x80)) :: cs)
              | none => none
            else none
        | _ => none
      else none

/- --- Concrete inputs used by witnesses and counterexamples. --- -/

/-- A concrete endpoint. -/
def epA : Endpoint := ⟨"10.0.0.1", 5001⟩

/-- A concrete endpoint. -/
def epB : Endpoint := ⟨"10.0.0.2", 5002⟩

/-- A concrete endpoint. -/
def epC : Endpoint := ⟨"10.0.0.3", 5003⟩

/-- A transport on which every send succeeds. -/
def okAll : Endpoint → Bool := fun _ => true

/-- A transport on which exactly the send to `epB` fails. -/
def okNotB : Endpoint → Bool := fun a => decide (a ≠ epB)

/- --- Helper lemmas about the dict / set model. --- -/

theorem dictLookup_dictSet_self {κ ν : Type} [DecidableEq κ] (d : List (κ × ν)) (k : κ) (v : ν) :
    dictLookup (dictSet d k v) k = some v := by
  induction d with
  | nil => simp [dictSet, dictLookup]
  | cons p rest ih =>
      obtain ⟨k2, v2⟩ := p
      by_cases h : k2 = k
      · simp [dictSet, h, dictLookup]
      · simp [dictSet, h, dictLookup, ih]

theorem dictLookup_dictSet_ne {κ ν : Type} [DecidableEq κ] (d : List (κ × ν)) (k k2 : κ) (v : ν)
    (h : k2 ≠ k) : dictLookup (dictSet d k v) k2 = dictLookup d k2 := by
  induction d with
  | nil => simp [dictSet, dictLookup, Ne.symm h]
  | cons p rest ih =>
      obtain ⟨k3, v3⟩ := p
      by_cases h2 : k3 = k
      · subst h2
        simp [dictSet, dictLookup, Ne.symm h]
      · simp [dictSet, h2, dictLookup, ih]

theorem dictLookup_eq_none_iff {κ ν : Type} [DecidableEq κ] (d : List (κ × ν)) (k : κ) :
    dictLookup d k = none ↔ k ∉ d.map Prod.fst := by
  induction d with
  | nil => simp [dictLookup]
  | cons p rest ih =>
      obtain ⟨k2, v2⟩ := p
      by_cases h : k2 = k
      · subst h; simp [dictLookup]
      · simp [dictLookup, h, ih, Ne.symm h]

theorem dictLookup_some_mem {κ ν : Type} [DecidableEq κ] {d : List (κ × ν)} {k : κ} {v : ν}
    (h : dictLookup d k = some v) : k ∈ d.map Prod.fst := by
  by_contra hk
  rw [← dictLookup_eq_none_iff] at hk
  rw [h] at hk
  exact Option.noConfusion hk

theorem keys_dictSet {κ ν : Type} [DecidableEq κ] (d : List (κ × ν)) (k : κ) (v : ν) :
    (dictSet d k v).map Prod.fst =
      if (dictLookup d k).isSome then d.map Prod.fst else d.map Prod.fst ++ [k] := by
  induction d with
  | nil => simp [dictSet, dictLookup]
  | cons p rest ih =>
      obtain ⟨k2, v2⟩ := p
      by_cases h : k2 = k
      · subst h; simp [dictSet, dictLookup]
      · by_cases h2 : (dictLookup rest k).isSome <;>
          simp [dictSet, dictLookup, h, ih, h2]

theorem keys_dictSet_nodup {κ ν : Type} [DecidableEq κ] (d : List (κ × ν)) (k : κ) (v : ν)
    (hn : (d.map Prod.fst).Nodup) : ((dictSet d k v).map Prod.fst).Nodup := by
  rw [keys_dictSet]
  by_cases h : (dictLookup d k).isSome
  · simpa [h]
  · have hk : k ∉ d.map Prod.fst := by
      rw [← dictLookup_eq_none_iff]
      cases hh : dictLookup d k with
      | none => rfl
      | some v2 => rw [hh] at h; simp at h
    simp [h, List.nodup_append, hn, hk]

theorem dictSet_length {κ ν : Type} [DecidableEq κ] (d : List (κ × ν)) (k : κ) (v : ν) :
    (dictSet d k v).length =
      if (dictLookup d k).isSome then d.length else d.length + 1 := by
  induction d with
  | nil => simp [dictSet, dictLookup]
  | cons p rest ih =>
      obtain ⟨k2, v2⟩ := p
      by_cases h : k2 = k
      · subst h; simp [dictSet, dictLookup]
      · by_cases h2 : (dictLookup rest k).isSome <;>
          simp [dictSet, dictLookup, h, ih, h2]

theorem countP_key_zero {κ ν : Type} [DecidableEq κ] (d : List (κ × ν)) (k : κ)
    (h : k ∉ d.map Prod.fst) : d.countP (fun p => decide (p.1 = k)) = 0 := by
  rw [List.countP_eq_zero]
  intro p hp
  simp only [decide_eq_true_eq]
  intro hpk
  exact h (hpk ▸ List.mem_map_of_mem Prod.fst hp)

theorem countP_dictSet_self {κ ν : Type} [DecidableEq κ] (d : List (κ × ν)) (k : κ) (v : ν)
    (hn : (d.map Prod.fst).Nodup) :
    (dictSet d k v).countP (fun p => decide (p.1 = k)) = 1 := by
  induction d with
  | nil => simp [dictSet, List.countP_cons]
  | cons p rest ih =>
      obtain ⟨k2, v2⟩ := p
      simp only [List.map_cons, List.nodup_cons] at hn
      by_cases h : k2 = k
      · subst h
        simp [dictSet, List.countP_cons, countP_key_zero rest k2 hn.1]
      · simp [dictSet, h, List.countP_cons, ih hn.2]

theorem dictPop_fst {κ ν : Type} [DecidableEq κ] (d : List (κ × ν)) (k : κ) :
    (dictPop d k).1 = dictLookup d k := by
  induction d with
  | nil => simp [dictPop, dictLookup]
  | cons p rest ih =>
      obtain ⟨k2, v2⟩ := p
      by_cases h : k2 = k
      · simp [dictPop, h, dictLookup]
      · simp [dictPop, h, dictLookup, ih]

theorem dictPop_snd_lookup_self {κ ν : Type} [DecidableEq κ] (d : List (κ × ν)) (k : κ)
    (hn : (d.map Prod.fst).Nodup) : dictLookup (dictPop d k).2 k = none := by
  induction d with
  | nil => simp [dictPop, dictLookup]
  | cons p rest ih =>
      obtain ⟨k2, v2⟩ := p
      simp only [List.map_cons, List.nodup_cons] at hn
      by_cases h : k2 = k
      · subst h
        simp [dictPop, dictLookup_eq_none_iff, hn.1]
      · simp [dictPop, h, dictLookup, ih hn.2]

theorem dictPop_snd_lookup_ne {κ ν : Type} [DecidableEq κ] (d : List (κ × ν)) (k k2 : κ)
    (h : k2 ≠ k) : dictLookup (dictPop d k).2 k2 = dictLookup d k2 := by
  induction d with
  | nil => simp [dictPop, dictLookup]
  | cons p rest ih =>
      obtain ⟨k3, v3⟩ := p
      by_cases h2 : k3 = k
      · subst h2
        simp [dictPop, dictLookup, Ne.symm h]
      · simp [dictPop, h2, dictLookup, ih]

theorem setAdd_mem_self {α : Type} [DecidableEq α] (s : List α) (a : α) : a ∈ setAdd s a := by
  by_cases h : a ∈ s <;> simp [setAdd, h]

theorem setAdd_mem_of_mem {α : Type} [DecidableEq α] {s : List α} {b : α} (a : α)
    (h : b ∈ s) : b ∈ setAdd s a := by
  by_cases h2 : a ∈ s <;> simp [setAdd, h2, h]

theorem setDiscard_not_mem {α : Type} [DecidableEq α] (s : List α) (a : α) :
    a ∉ setDiscard s a := by
  simp [setDiscard]

theorem disconnect_pending (s : SState) (a : Endpoint) :
    (disconnect s a).pending = s.pending := by
  rcases h : dictPop s.clients a with ⟨o, rest⟩
  cases o <;> simp [disconnect, h]

theorem disconnect_of_not_registered {s : SState} {a : Endpoint}
    (h : dictLookup s.clients a = none) : disconnect s a = s := by
  have h1 : (dictPop s.clients a).1 = none := by rw [dictPop_fst]; exact h
  rcases h2 : dictPop s.clients a with ⟨o, rest⟩
  rw [h2] at h1
  simp only at h1
  subst h1
  simp [disconnect, h2]

theorem disconnect_clients_of_registered {s : SState} {a : Endpoint} {c : ClientInfo}
    (h : dictLookup s.clients a = some c) :
    (disconnect s a).clients = (dictPop s.clients a).2 := by
  have h1 : (dictPop s.clients a).1 = some c := by rw [dictPop_fst]; exact h
  rcases h2 : dictPop s.clients a with ⟨o, rest⟩
  rw [h2] at h1
  simp only at h1
  subst h1
  simp [disconnect, h2]

theorem disconnect_rooms_of_registered {s : SState} {a : Endpoint} {c : ClientInfo}
    (h : dictLookup s.clients a = some c) :
    (disconnect s a).rooms = s.rooms.map (fun rm => (rm.1, setDiscard rm.2 a)) := by
  have h1 : (dictPop s.clients a).1 = some c := by rw [dictPop_fst]; exact h
  rcases h2 : dictPop s.clients a with ⟨o, rest⟩
  rw [h2] at h1
  simp only at h1
  subst h1
  simp [disconnect, h2]

theorem disconnect_lookup_self (s : SState) (a : Endpoint)
    (hn : (s.clients.map Prod.fst).Nodup) :
    dictLookup (disconnect s a).clients a = none := by
  cases h : dictLookup s.clients a with
  | none => rw [disconnect_of_not_registered h]; exact h
  | some c =>
      rw [disconnect_clients_of_registered h]
      exact dictPop_snd_lookup_self s.clients a hn

theorem disconnect_lookup_ne (s : SState) (a b : Endpoint) (h : b ≠ a) :
    dictLookup (disconnect s a).clients b = dictLookup s.clients b := by
  cases h2 : dictLookup s.clients a with
  | none => rw [disconnect_of_not_registered h2]
  | some c =>
      rw [disconnect_clients_of_registered h2]
      exact dictPop_snd_lookup_ne s.clients a b h

theorem disconnect_rooms_not_mem {s : SState} {a : Endpoint} {c : ClientInfo}
    (h : dictLookup s.clients a = some c) :
    ∀ rm ∈ (disconnect s a).rooms, a ∉ rm.2 := by
  rw [disconnect_rooms_of_registered h]
  intro rm hrm
  obtain ⟨rm0, _, rfl⟩ := List.mem_map.mp hrm
  exact setDiscard_not_mem rm0.2 a

/- --- Broadcast lemmas. --- -/

theorem sendToAll_all_ok (ok : Endpoint → Bool) (p : Packet) (ex : Option Endpoint)
    (targets : List Endpoint) (s : SState) (h : ∀ a ∈ targets, ok a = true) :
    sendToAll ok p ex targets s =
      (s, (targets.filter (fun a => !decide (ex = some a))).map (fun a => (p, a))) := by
  induction targets with
  | nil => simp [sendToAll]
  | cons a rest ih =>
      have ihr := ih (fun b hb => h b (List.mem_cons_of_mem a hb))
      by_cases hex : ex = some a
      · subst hex
        simp [sendToAll, ihr]
      · have hok : ok a = true := h a (List.mem_cons_self a rest)
        simp [sendToAll, hex, sendStep, hok, ihr]

theorem sendToAll_one_fail (ok : Endpoint → Bool) (p : Packet) (ex : Option Endpoint)
    (targets : List Endpoint) (s : SState) (f : Endpoint)
    (hn : targets.Nodup) (hf : f ∈ targets) (hex : ex ≠ some f) (hko : ok f = false)
    (h : ∀ a ∈ targets, a ≠ f → ok a = true) :
    sendToAll ok p ex targets s =
      (disconnect s f,
       (targets.filter (fun a => !decide (ex = some a) && !decide (a = f))).map
         (fun a => (p, a))) := by
  induction targets with
  | nil => simp at hf
  | cons a rest ih =>
      simp only [List.nodup_cons] at hn
      by_cases haf : a = f
      · subst haf
        have hrest : ∀ b ∈ rest, ok b = true := by
          intro b hb
          exact h b (List.mem_cons_of_mem a hb) (fun hbf => hn.1 (hbf ▸ hb))
        rw [sendToAll, if_neg hex]
        simp [sendStep, hko, sendToAll_all_ok ok p ex rest (disconnect s a) hrest]
        congr 1
        apply List.filter_congr
        intro b hb
        have hba : ¬ b = a := fun hbf => hn.1 (hbf ▸ hb)
        simp [hba]
      · have hfr : f ∈ rest := by
          rcases List.mem_cons.mp hf with h1 | h1
          · exact absurd h1.symm haf
          · exact h1
        have ihr := ih hn.2 hfr (fun b hb => h b (List.mem_cons_of_mem a hb))
        by_cases hexa : ex = some a
        · subst hexa
          simp [sendToAll, ihr]
        · have hok : ok a = true := h a (List.mem_cons_self a rest) haf
          simp [sendToAll, hexa, sendStep, hok, haf, ihr]

/- --- Dispatch lemmas for `_process_loop`. --- -/

theorem processValid_join (ok : Endpoint → Bool) (s : SState) (pkt : Packet) (addr : Endpoint)
    (h : dictLookup pkt "type" = some JOIN) :
    processValid ok s pkt addr = some (handleJoin s pkt addr, []) := by
  simp [processValid, h, JOIN]

theorem processValid_create (ok : Endpoint → Bool) (s : SState) (pkt : Packet) (addr : Endpoint)
    (h : dictLookup pkt "type" = some CREATE_ROOM) :
    processValid ok s pkt addr = handleCreate ok s pkt addr := by
  simp [processValid, h, JOIN, PUBLIC_MSG, QUIT, CREATE_ROOM]

theorem processValid_invite (ok : Endpoint → Bool) (s : SState) (pkt : Packet) (addr : Endpoint)
    (h : dictLookup pkt "type" = some INVITE) :
    processValid ok s pkt addr = handleInvite ok s pkt addr := by
  simp [processValid, h, JOIN, PUBLIC_MSG, QUIT, CREATE_ROOM, INVITE]

theorem processValid_accept (ok : Endpoint → Bool) (s : SState) (pkt : Packet) (addr : Endpoint)
    (h : dictLookup pkt "type" = some ACCEPT_INV) :
    processValid ok s pkt addr = some (handleAccept ok s pkt addr) := by
  simp [processValid, h, JOIN, PUBLIC_MSG, QUIT, CREATE_ROOM, INVITE, ACCEPT_INV]

theorem processValid_roomMsg (ok : Endpoint → Bool) (s : SState) (pkt : Packet) (addr : Endpoint)
    (h : dictLookup pkt "type" = some ROOM_MSG) :
    processValid ok s pkt addr = handleRoomMsg ok s pkt addr := by
  simp [processValid, h, JOIN, PUBLIC_MSG, QUIT, CREATE_ROOM, INVITE, ACCEPT_INV, ROOM_MSG]

/- --- Handler-shape lemmas. --- -/

theorem handleAccept_success (ok : Endpoint → Bool) (s : SState) (pkt : Packet)
    (addr : Endpoint) (room : String)
    (hroom : dictLookup pkt "room" = some room)
    (hmem : room ∈ (dictLookup s.pending addr).getD [])
    (hok : ok addr = true) :
    handleAccept ok s pkt addr =
      ({ s with
          rooms := dictSet s.rooms room (setAdd ((dictLookup s.rooms room).getD []) addr)
          pending := dictSet s.pending addr
            (setDiscard ((dictLookup s.pending addr).getD []) room) },
       [(mkPacketRec SYSTEM_MSG [("text", joinedAckText room)], addr)]) := by
  simp [handleAccept, hroom, hmem, sendStep, hok]

theorem handleAccept_fail (ok : Endpoint → Bool) (s : SState) (pkt : Packet)
    (addr : Endpoint) (room : String)
    (hroom : dictLookup pkt "room" = some room)
    (hmem : room ∉ (dictLookup s.pending addr).getD [])
    (hok : ok addr = true) :
    handleAccept ok s pkt addr =
      (s, [(mkPacketRec SYSTEM_MSG [("text", noInviteText)], addr)]) := by
  simp [handleAccept, hroom, hmem, sendStep, hok]

theorem handleCreate_success (ok : Endpoint → Bool) (s : SState) (pkt : Packet)
    (addr : Endpoint) (room : String) (c : ClientInfo)
    (hroom : dictLookup pkt "room" = some room) (hne : room ≠ "")
    (hreg : dictLookup s.clients addr = some c) (hok : ok addr = true) :
    handleCreate ok s pkt addr =
      some ({ s with
          rooms := dictSet s.rooms room (setAdd ((dictLookup s.rooms room).getD []) addr) },
        [(mkPacketRec SYSTEM_MSG [("text", createAckText room)], addr)]) := by
  simp [handleCreate, hroom, hne, hreg, sendStep, hok]

/-- Claim C2 (code bug at the decode stage, evaluated at the failing
input): the one-byte datagram `0xFF` is not valid UTF-8, so `data.decode()`
inside `parse_packet` raises `UnicodeDecodeError` — a sibling, not a
subclass, of `json.JSONDecodeError`, so the `except json.JSONDecodeError`
clause of `_process_loop` does not catch it and the router loop terminates
instead of dropping the datagram silently. By contrast an ASCII datagram
such as `"not json"` decodes cleanly and only then fails JSON parsing,
which is the caught, silently-dropped path the claim describes. -/
theorem C2_decode_crash :
    utf8Decode [0xFF] = none
    ∧ utf8Decode ("not json".data.map Char.toNat) = some "not json".data
    ∧ parse_packet "not json".data = none :=
  ⟨rfl, by decide, rfl⟩

/-- Claim C3: `accept_invite{room=R}` from `E` succeeds iff `R` is in `E`'s
pending-invitation set; on success `E` joins the room, the pending entry is
cleared and a `sys` acknowledgement goes to `E`; on failure a `sys` error
goes to `E` and the state is unchanged. -/
theorem C3_accept_iff (ok : Endpoint → Bool) (s : SState) (pkt : Packet)
    (addr : Endpoint) (room : String)
    (ht : dictLookup pkt "type" = some ACCEPT_INV)
    (hroom : dictLookup pkt "room" = some room)
    (hok : ok addr = true) :
    (room ∈ (dictLookup s.pending addr).getD [] →
      ∃ s2, processValid ok s pkt addr =
          some (s2, [(mkPacketRec SYSTEM_MSG [("text", joinedAckText room)], addr)])
        ∧ addr ∈ (dictLookup s2.rooms room).getD []
        ∧ room ∉ (dictLookup s2.pending addr).getD []
        ∧ s2.clients = s.clients)
    ∧ (room ∉ (dictLookup s.pending addr).getD [] →
      processValid ok s pkt addr =
        some (s, [(mkPacketRec SYSTEM_MSG [("text", noInviteText)], addr)])) := by
  constructor
  · intro hmem
    refine ⟨{ s with
        rooms := dictSet s.rooms room (setAdd ((dictLookup s.rooms room).getD []) addr)
        pending := dictSet s.pending addr
          (setDiscard ((dictLookup s.pending addr).getD []) room) },
      ?_, ?_, ?_, rfl⟩
    · rw [processValid_accept ok s pkt addr ht,
        handleAccept_success ok s pkt addr room hroom hmem hok]
    · simpa [dictLookup_dictSet_self] using
        setAdd_mem_self ((dictLookup s.rooms room).getD []) addr
    · simpa [dictLookup_dictSet_self] using
        setDiscard_not_mem ((dictLookup s.pending addr).getD []) room
  · intro hmem
    rw [processValid_accept ok s pkt addr ht,
      handleAccept_fail ok s pkt addr room hroom hmem hok]

/-- Witness for C3 at a concrete state with a pending invitation. -/
theorem C3_witness :
    (∃ s2, processValid okAll ⟨[], [("den", [epB])], [(epA, ["den"])]⟩
        [("type", "accept_invite"), ("name", "Ann"), ("room", "den")] epA =
          some (s2, [(mkPacketRec SYSTEM_MSG [("text", joinedAckText "den")], epA)])
      ∧ epA ∈ (dictLookup s2.rooms "den").getD []
      ∧ "den" ∉ (dictLookup s2.pending epA).getD []
      ∧ s2.clients = (⟨[], [("den", [epB])], [(epA, ["den"])]⟩ : SState).clients) :=
  (C3_accept_iff okAll ⟨[], [("den", [epB])], [(epA, ["den"])]⟩
    [("type", "accept_invite"), ("name", "Ann"), ("room", "den")] epA "den"
    (by decide) (by decide) (by decide)).1 (by decide)

/-- Claim C9: after `join{name=N}` from endpoint `E`, the registry maps `E`
to a `ClientInfo` with display name `N`; a re-join overwrites rather than
adding a second entry, so there is exactly one entry for `E`. -/
theorem C9_join_registers (ok : Endpoint → Bool) (s : SState) (pkt : Packet)
    (addr : Endpoint) (n : String)
    (hn : (s.clients.map Prod.fst).Nodup)
    (ht : dictLookup pkt "type" = some JOIN)
    (hname : dictLookup pkt "name" = some n) :
    ∃ s2, processValid ok s pkt addr = some (s2, [])
      ∧ dictLookup s2.clients addr = some ⟨addr, n⟩
      ∧ (s2.clients.map Prod.fst).Nodup
      ∧ s2.clients.countP (fun p => decide (p.1 = addr)) = 1
      ∧ s2.clients.length =
          (if (dictLookup s.clients addr).isSome then s.clients.length
           else s.clients.length + 1)
      ∧ s2.rooms = s.rooms ∧ s2.pending = s.pending := by
  refine ⟨handleJoin s pkt addr, processValid_join ok s pkt addr ht, ?_, ?_, ?_, ?_, rfl, rfl⟩
  · simp [handleJoin, hname, dictLookup_dictSet_self]
  · exact keys_dictSet_nodup _ _ _ hn
  · exact countP_dictSet_self _ _ _ hn
  · simp [handleJoin, dictSet_length]

/-- Witness for C9: a join then a re-join from the same endpoint. -/
theorem C9_witness :
    (∃ s2, processValid okAll ⟨[(epC, ⟨epC, "Old"⟩)], [], []⟩
        [("type", "join"), ("name", "Nia")] epC = some (s2, [])
      ∧ dictLookup s2.clients epC = some ⟨epC, "Nia"⟩
      ∧ (s2.clients.map Prod.fst).Nodup
      ∧ s2.clients.countP (fun p => decide (p.1 = epC)) = 1
      ∧ s2.clients.length =
          (if (dictLookup (⟨[(epC, ⟨epC, "Old"⟩)], [], []⟩ : SState).clients epC).isSome
           then (⟨[(epC, ⟨epC, "Old"⟩)], [], []⟩ : SState).clients.length
           else (⟨[(epC, ⟨epC, "Old"⟩)], [], []⟩ : SState).clients.length + 1)
      ∧ s2.rooms = (⟨[(epC, ⟨epC, "Old"⟩)], [], []⟩ : SState).rooms
      ∧ s2.pending = (⟨[(epC, ⟨epC, "Old"⟩)], [], []⟩ : SState).pending) :=
  C9_join_registers okAll ⟨[(epC, ⟨epC, "Old"⟩)], [], []⟩
    [("type", "join"), ("name", "Nia")] epC "Nia" (by decide) (by decide) (by decide)

/-- Claim C10: the disconnect path removes the `ClientInfo` and purges the
endpoint from every room but leaves its pending invitations intact, so an
`accept_invite` processed after the disconnect still succeeds and re-adds
the endpoint to the room although it has no `ClientInfo`. -/
theorem C10_pending_survives_disconnect (ok : Endpoint → Bool) (s : SState)
    (pkt : Packet) (addr : Endpoint) (room : String) (c : ClientInfo)
    (hn : (s.clients.map Prod.fst).Nodup)
    (hreg : dictLookup s.clients addr = some c)
    (ht : dictLookup pkt "type" = some ACCEPT_INV)
    (hroom : dictLookup pkt "room" = some room)
    (hpend : room ∈ (dictLookup s.pending addr).getD [])
    (hok : ok addr = true) :
    (disconnect s addr).pending = s.pending
    ∧ dictLookup (disconnect s addr).clients addr = none
    ∧ (∀ rm ∈ (disconnect s addr).rooms, addr ∉ rm.2)
    ∧ ∃ s2, processValid ok (disconnect s addr) pkt addr =
        some (s2, [(mkPacketRec SYSTEM_MSG [("text", joinedAckText room)], addr)])
      ∧ addr ∈ (dictLookup s2.rooms room).getD []
      ∧ dictLookup s2.clients addr = none := by
  have hpend1 : room ∈ (dictLookup (disconnect s addr).pending addr).getD [] := by
    rw [disconnect_pending]; exact hpend
  have hnone : dictLookup (disconnect s addr).clients addr = none :=
    disconnect_lookup_self s addr hn
  refine ⟨disconnect_pending s addr, hnone, disconnect_rooms_not_mem hreg, ?_⟩
  refine ⟨{ disconnect s addr with
      rooms := dictSet (disconnect s addr).rooms room
        (setAdd ((dictLookup (disconnect s addr).rooms room).getD []) addr)
      pending := dictSet (disconnect s addr).pending addr
        (setDiscard ((dictLookup (disconnect s addr).pending addr).getD []) room) },
    ?_, ?_, ?_⟩
  · rw [processValid_accept ok (disconnect s addr) pkt addr ht,
      handleAccept_success ok (disconnect s addr) pkt addr room hroom hpend1 hok]
  · simpa [dictLookup_dictSet_self] using
      setAdd_mem_self ((dictLookup (disconnect s addr).rooms room).getD []) addr
  · exact hnone

/-- Witness for C10: a registered endpoint with a pending invitation is
disconnected, then accepts. -/
theorem C10_witness :
    ((disconnect ⟨[(epA, ⟨epA, "Ann"⟩)], [("den", [epA, epB])], [(epA, ["den"])]⟩ epA).pending
        = (⟨[(epA, ⟨epA, "Ann"⟩)], [("den", [epA, epB])], [(epA, ["den"])]⟩ : SState).pending
    ∧ dictLookup (disconnect ⟨[(epA, ⟨epA, "Ann"⟩)], [("den", [epA, epB])], [(epA, ["den"])]⟩
        epA).clients epA = none
    ∧ (∀ rm ∈ (disconnect ⟨[(epA, ⟨epA, "Ann"⟩)], [("den", [epA, epB])], [(epA, ["den"])]⟩
        epA).rooms, epA ∉ rm.2)
    ∧ ∃ s2, processValid okAll
          (disconnect ⟨[(epA, ⟨epA, "Ann"⟩)], [("den", [epA, epB])], [(epA, ["den"])]⟩ epA)
          [("type", "accept_invite"), ("name", "Ann"), ("room", "den")] epA =
        some (s2, [(mkPacketRec SYSTEM_MSG [("text", joinedAckText "den")], epA)])
      ∧ epA ∈ (dictLookup s2.rooms "den").getD []
      ∧ dictLookup s2.clients epA = none) :=
  C10_pending_survives_disconnect okAll
    ⟨[(epA, ⟨epA, "Ann"⟩)], [("den", [epA, epB])], [(epA, ["den"])]⟩
    [("type", "accept_invite"), ("name", "Ann"), ("room", "den")] epA "den" ⟨epA, "Ann"⟩
    (by decide) (by decide) (by decide) (by decide) (by decide) (by decide)

/-- Claim C1 counterexample: a schema-valid `create_room` packet from an
endpoint that never joined makes the handler raise (`none`), so the packet
is not acknowledged and the router loop terminates — the claim promised
success, an acknowledgement, and a surviving loop for every sender. -/
theorem C1_counterexample :
    validatePacket [("type", "create_room"), ("name", "Zed"), ("room", "warroom")] = true
    ∧ processValid okAll ⟨[], [], []⟩
        [("type", "create_room"), ("name", "Zed"), ("room", "warroom")] epA = none :=
  ⟨rfl, rfl⟩

/-- Claim C1 (amended): a `create_room` packet from a *registered* endpoint
with a non-empty room value, whose acknowledgement send succeeds, always
succeeds: the sender is added to the named room (created on demand), a
`sys` acknowledgement is sent back, and the router loop survives. -/
theorem C1_create_succeeds (ok : Endpoint → Bool) (s : SState) (pkt : Packet)
    (addr : Endpoint) (room : String) (c : ClientInfo)
    (ht : dictLookup pkt "type" = some CREATE_ROOM)
    (hroom : dictLookup pkt "room" = some room)
    (hne : room ≠ "")
    (hreg : dictLookup s.clients addr = some c)
    (hok : ok addr = true) :
    ∃ s2, processValid ok s pkt addr =
        some (s2, [(mkPacketRec SYSTEM_MSG [("text", createAckText room)], addr)])
      ∧ addr ∈ (dictLookup s2.rooms room).getD []
      ∧ s2.clients = s.clients ∧ s2.pending = s.pending := by
  refine ⟨{ s with
      rooms := dictSet s.rooms room (setAdd ((dictLookup s.rooms room).getD []) addr) },
    ?_, ?_, rfl, rfl⟩
  · rw [processValid_create ok s pkt addr ht,
      handleCreate_success ok s pkt addr room c hroom hne hreg hok]
  · simpa [dictLookup_dictSet_self] using
      setAdd_mem_self ((dictLookup s.rooms room).getD []) addr

/-- Witness for the amended C1 at a concrete registered sender. -/
theorem C1_witness :
    (∃ s2, processValid okAll ⟨[(epA, ⟨epA, "Ann"⟩)], [], []⟩
        [("type", "create_room"), ("name", "Ann"), ("room", "den")] epA =
          some (s2, [(mkPacketRec SYSTEM_MSG [("text", createAckText "den")], epA)])
      ∧ epA ∈ (dictLookup s2.rooms "den").getD []
      ∧ s2.clients = (⟨[(epA, ⟨epA, "Ann"⟩)], [], []⟩ : SState).clients
      ∧ s2.pending = (⟨[(epA, ⟨epA, "Ann"⟩)], [], []⟩ : SState).pending) :=
  C1_create_succeeds okAll ⟨[(epA, ⟨epA, "Ann"⟩)], [], []⟩
    [("type", "create_room"), ("name", "Ann"), ("room", "den")] epA "den" ⟨epA, "Ann"⟩
    (by decide) (by decide) (by decide) (by decide) (by decide)

/-- Claim C7 counterexample: for the room name `""` (a value in the claim's
scope over every room name), two schema-valid `create_room` packets from two
registered endpoints are both silently ignored by the falsy-room guard of
`_handle_create`: no room is created, neither caller becomes a member, and
no acknowledgement is sent — not the promised single room containing both. -/
theorem C7_counterexample :
    validatePacket [("type", "create_room"), ("name", "Ann"), ("room", "")] = true
    ∧ processValid okAll ⟨[(epA, ⟨epA, "Ann"⟩), (epB, ⟨epB, "Ben"⟩)], [], []⟩
        [("type", "create_room"), ("name", "Ann"), ("room", "")] epA
      = some (⟨[(epA, ⟨epA, "Ann"⟩), (epB, ⟨epB, "Ben"⟩)], [], []⟩, [])
    ∧ processValid okAll ⟨[(epA, ⟨epA, "Ann"⟩), (epB, ⟨epB, "Ben"⟩)], [], []⟩
        [("type", "create_room"), ("name", "Ben"), ("room", "")] epB
      = some (⟨[(epA, ⟨epA, "Ann"⟩), (epB, ⟨epB, "Ben"⟩)], [], []⟩, [])
    ∧ dictLookup (⟨[(epA, ⟨epA, "Ann"⟩), (epB, ⟨epB, "Ben"⟩)], [], []⟩ : SState).rooms ""
      = none :=
  ⟨rfl, rfl, rfl, rfl⟩

/-- Claim C7 (amended): for every non-empty room name, processing
`create_room` from registered endpoint `A` and then from registered endpoint
`B` (acknowledgement sends succeeding) yields exactly one room entry of that
name, whose member set contains both `A` and `B`, and the second call
replies with the acknowledgement, not an error. -/
theorem C7_create_idempotent (ok : Endpoint → Bool) (s : SState)
    (pktA pktB : Packet) (a b : Endpoint) (room : String) (ca cb : ClientInfo)
    (hnr : (s.rooms.map Prod.fst).Nodup)
    (htA : dictLookup pktA "type" = some CREATE_ROOM)
    (hroomA : dictLookup pktA "room" = some room)
    (htB : dictLookup pktB "type" = some CREATE_ROOM)
    (hroomB : dictLookup pktB "room" = some room)
    (hne : room ≠ "")
    (hregA : dictLookup s.clients a = some ca)
    (hregB : dictLookup s.clients b = some cb)
    (hokA : ok a = true) (hokB : ok b = true) :
    ∃ s1 s2, processValid ok s pktA a =
        some (s1, [(mkPacketRec SYSTEM_MSG [("text", createAckText room)], a)])
      ∧ processValid ok s1 pktB b =
        some (s2, [(mkPacketRec SYSTEM_MSG [("text", createAckText room)], b)])
      ∧ a ∈ (dictLookup s2.rooms room).getD []
      ∧ b ∈ (dictLookup s2.rooms room).getD []
      ∧ s2.rooms.countP (fun rm => decide (rm.1 = room)) = 1
      ∧ (s2.rooms.map Prod.fst).Nodup := by
  refine ⟨{ s with
      rooms := dictSet s.rooms room (setAdd ((dictLookup s.rooms room).getD []) a) },
    { s with
      rooms := dictSet (dictSet s.rooms room (setAdd ((dictLookup s.rooms room).getD []) a))
        room (setAdd (setAdd ((dictLookup s.rooms room).getD []) a) b) },
    ?_, ?_, ?_, ?_, ?_, ?_⟩
  · rw [processValid_create ok s pktA a htA,
      handleCreate_success ok s pktA a room ca hroomA hne hregA hokA]
  · rw [processValid_create ok
        { s with rooms := dictSet s.rooms room (setAdd ((dictLookup s.rooms room).getD []) a) }
        pktB b htB,
      handleCreate_success ok
        { s with rooms := dictSet s.rooms room (setAdd ((dictLookup s.rooms room).getD []) a) }
        pktB b room cb hroomB hne hregB hokB]
    simp [dictLookup_dictSet_self]
  · simpa [dictLookup_dictSet_self] using
      setAdd_mem_of_mem b
        (setAdd_mem_self ((dictLookup s.rooms room).getD []) a)
  · simpa [dictLookup_dictSet_self] using
      setAdd_mem_self (setAdd ((dictLookup s.rooms room).getD []) a) b
  · exact countP_dictSet_self _ _ _ (keys_dictSet_nodup _ _ _ hnr)
  · exact keys_dictSet_nodup _ _ _ (keys_dictSet_nodup _ _ _ hnr)

/-- Witness for the amended C7 at two concrete registered endpoints. -/
theorem C7_witness :
    (∃ s1 s2, processValid okAll ⟨[(epA, ⟨epA, "Ann"⟩), (epB, ⟨epB, "Ben"⟩)], [], []⟩
        [("type", "create_room"), ("name", "Ann"), ("room", "hub")] epA =
          some (s1, [(mkPacketRec SYSTEM_MSG [("text", createAckText "hub")], epA)])
      ∧ processValid okAll s1
          [("type", "create_room"), ("name", "Ben"), ("room", "hub")] epB =
          some (s2, [(mkPacketRec SYSTEM_MSG [("text", createAckText "hub")], epB)])
      ∧ epA ∈ (dictLookup s2.rooms "hub").getD []
      ∧ epB ∈ (dictLookup s2.rooms "hub").getD []
      ∧ s2.rooms.countP (fun rm => decide (rm.1 = "hub")) = 1
      ∧ (s2.rooms.map Prod.fst).Nodup) :=
  C7_create_idempotent okAll ⟨[(epA, ⟨epA, "Ann"⟩), (epB, ⟨epB, "Ben"⟩)], [], []⟩
    [("type", "create_room"), ("name", "Ann"), ("room", "hub")]
    [("type", "create_room"), ("name", "Ben"), ("room", "hub")]
    epA epB "hub" ⟨epA, "Ann"⟩ ⟨epB, "Ben"⟩
    (by decide) (by decide) (by decide) (by decide) (by decide) (by decide)
    (by decide) (by decide) (by decide) (by decide)

theorem filter_ne_length {α : Type} [DecidableEq α] (l : List α) (f : α)
    (hn : l.Nodup) (hf : f ∈ l) :
    (l.filter (fun a => !decide (a = f))).length + 1 = l.length := by
  induction l with
  | nil => simp at hf
  | cons a rest ih =>
      simp only [List.nodup_cons] at hn
      by_cases h : a = f
      · subst h
        have hshape : rest.filter (fun b => !decide (b = a)) = rest := by
          apply List.filter_eq_self.mpr
          intro b hb
          have hba : ¬ b = a := fun hba => hn.1 (hba ▸ hb)
          simp [hba]
        simp [List.filter_cons, hshape]
      · have hfr : f ∈ rest := by
          rcases List.mem_cons.mp hf with h1 | h1
          · exact absurd h1.symm h
          · exact h1
        have hih := ih hn.2 hfr
        simp only [List.filter_cons]
        have hpred : (!decide (a = f)) = true := by simp [h]
        rw [hpred]
        simp only [if_true, List.length_cons]
        omega

/-- Claim C4: broadcasting to the registered endpoints when the transport
send to exactly one endpoint `f` fails still delivers to every other
(non-excluded) endpoint, removes `f` from the client registry, purges `f`
from every room, and leaves other registry entries and the pending table
alone; without an exclusion the delivery count is exactly `N − 1`. -/
theorem C4_broadcast_tolerates_failure (ok : Endpoint → Bool) (s : SState) (p : Packet)
    (ex : Option Endpoint) (f : Endpoint) (c : ClientInfo)
    (hn : (s.clients.map Prod.fst).Nodup)
    (hreg : dictLookup s.clients f = some c)
    (hex : ex ≠ some f)
    (hfail : ok f = false)
    (hrest : ∀ a ∈ s.clients.map Prod.fst, a ≠ f → ok a = true) :
    broadcast ok s p ex =
      (disconnect s f,
       ((s.clients.map Prod.fst).filter
          (fun a => !decide (ex = some a) && !decide (a = f))).map (fun a => (p, a)))
    ∧ dictLookup (disconnect s f).clients f = none
    ∧ (∀ a, a ≠ f → dictLookup (disconnect s f).clients a = dictLookup s.clients a)
    ∧ (∀ rm ∈ (disconnect s f).rooms, f ∉ rm.2)
    ∧ (disconnect s f).pending = s.pending
    ∧ (ex = none →
        ((s.clients.map Prod.fst).filter
          (fun a => !decide (ex = some a) && !decide (a = f))).length + 1
          = s.clients.length) := by
  refine ⟨?_, disconnect_lookup_self s f hn, fun a ha => disconnect_lookup_ne s f a ha,
    disconnect_rooms_not_mem hreg, disconnect_pending s f, ?_⟩
  · simpa [broadcast] using
      sendToAll_one_fail ok p ex (s.clients.map Prod.fst) s f hn
        (dictLookup_some_mem hreg) hex hfail hrest
  · intro hexn
    subst hexn
    have hfc : (s.clients.map Prod.fst).filter
          (fun a => !decide ((none : Option Endpoint) = some a) && !decide (a = f))
        = (s.clients.map Prod.fst).filter (fun a => !decide (a = f)) := by
      apply List.filter_congr
      intro b hb
      simp
    rw [hfc]
    simpa using filter_ne_length (s.clients.map Prod.fst) f hn (dictLookup_some_mem hreg)

/-- Witness for C4: three registered clients, the send to `epB` failing. -/
theorem C4_witness :
    (broadcast okNotB
        ⟨[(epA, ⟨epA, "Ann"⟩), (epB, ⟨epB, "Ben"⟩), (epC, ⟨epC, "Cy"⟩)],
         [("den", [epB, epC])], []⟩ [("text", "hi"), ("type", "msg")] none =
      (disconnect ⟨[(epA, ⟨epA, "Ann"⟩), (epB, ⟨epB, "Ben"⟩), (epC, ⟨epC, "Cy"⟩)],
         [("den", [epB, epC])], []⟩ epB,
       (((⟨[(epA, ⟨epA, "Ann"⟩), (epB, ⟨epB, "Ben"⟩), (epC, ⟨epC, "Cy"⟩)],
         [("den", [epB, epC])], []⟩ : SState).clients.map Prod.fst).filter
          (fun a => !decide ((none : Option Endpoint) = some a) && !decide (a = epB))).map
         (fun a => ([("text", "hi"), ("type", "msg")], a)))
    ∧ dictLookup (disconnect ⟨[(epA, ⟨epA, "Ann"⟩), (epB, ⟨epB, "Ben"⟩), (epC, ⟨epC, "Cy"⟩)],
         [("den", [epB, epC])], []⟩ epB).clients epB = none
    ∧ (∀ a, a ≠ epB →
        dictLookup (disconnect ⟨[(epA, ⟨epA, "Ann"⟩), (epB, ⟨epB, "Ben"⟩), (epC, ⟨epC, "Cy"⟩)],
          [("den", [epB, epC])], []⟩ epB).clients a =
        dictLookup (⟨[(epA, ⟨epA, "Ann"⟩), (epB, ⟨epB, "Ben"⟩), (epC, ⟨epC, "Cy"⟩)],
          [("den", [epB, epC])], []⟩ : SState).clients a)
    ∧ (∀ rm ∈ (disconnect ⟨[(epA, ⟨epA, "Ann"⟩), (epB, ⟨epB, "Ben"⟩), (epC, ⟨epC, "Cy"⟩)],
         [("den", [epB, epC])], []⟩ epB).rooms, epB ∉ rm.2)
    ∧ (disconnect ⟨[(epA, ⟨epA, "Ann"⟩), (epB, ⟨epB, "Ben"⟩), (epC, ⟨epC, "Cy"⟩)],
         [("den", [epB, epC])], []⟩ epB).pending =
      (⟨[(epA, ⟨epA, "Ann"⟩), (epB, ⟨epB, "Ben"⟩), (epC, ⟨epC, "Cy"⟩)],
         [("den", [epB, epC])], []⟩ : SState).pending
    ∧ ((none : Option Endpoint) = none →
        (((⟨[(epA, ⟨epA, "Ann"⟩), (epB, ⟨epB, "Ben"⟩), (epC, ⟨epC, "Cy"⟩)],
          [("den", [epB, epC])], []⟩ : SState).clients.map Prod.fst).filter
          (fun a => !decide ((none : Option Endpoint) = some a) && !decide (a = epB))).length + 1
          = (⟨[(epA, ⟨epA, "Ann"⟩), (epB, ⟨epB, "Ben"⟩), (epC, ⟨epC, "Cy"⟩)],
            [("den", [epB, epC])], []⟩ : SState).clients.length)) :=
  C4_broadcast_tolerates_failure okNotB
    ⟨[(epA, ⟨epA, "Ann"⟩), (epB, ⟨epB, "Ben"⟩), (epC, ⟨epC, "Cy"⟩)], [("den", [epB, epC])], []⟩
    [("text", "hi"), ("type", "msg")] none epB ⟨epB, "Ben"⟩
    (by decide) (by decide) (by decide) (by decide) (by decide)

theorem handleRoomMsg_success (ok : Endpoint → Bool) (s : SState) (pkt : Packet)
    (addr : Endpoint) (room : String) (ms : List Endpoint) (c : ClientInfo)
    (hroom : dictLookup pkt "room" = some room)
    (hms : dictLookup s.rooms room = some ms)
    (hmem : addr ∈ ms)
    (hreg : dictLookup s.clients addr = some c) :
    handleRoomMsg ok s pkt addr =
      some (sendToAll ok
        (mkPacketRec ROOM_MSG
          [("room", room), ("text", (dictLookup pkt "text").getD ""), ("from", c.name)])
        (some addr) ms s) := by
  simp [handleRoomMsg, hroom, hms, hmem, hreg]

theorem handleRoomMsg_fail (ok : Endpoint → Bool) (s : SState) (pkt : Packet)
    (addr : Endpoint) (room : String)
    (hroom : dictLookup pkt "room" = some room)
    (hfail : dictLookup s.rooms room = none ∨
      ∃ ms, dictLookup s.rooms room = some ms ∧ addr ∉ ms) :
    handleRoomMsg ok s pkt addr =
      some (sendStep ok (mkPacketRec SYSTEM_MSG [("text", notInRoomText)]) addr s) := by
  rcases hfail with h | ⟨ms, h1, h2⟩
  · simp [handleRoomMsg, hroom, h]
  · simp [handleRoomMsg, hroom, h1, h2]

/-- Claim C5 counterexample: endpoint `epA` is a member of room `den` but
has no `ClientInfo` (reachable by invite, disconnect, then accept), and the
room has another member `epB`; a schema-valid `room_msg` from `epA` then
makes `_handle_room_msg` raise on `self.clients[addr]` (`none`): nothing is
delivered to `epB`, although the claim promised delivery to every other
member whenever the sender is a member. -/
theorem C5_counterexample :
    validatePacket [("type", "room_msg"), ("room", "den"), ("from", "Ann"), ("text", "hi")] = true
    ∧ epA ∈ (dictLookup (⟨[(epB, ⟨epB, "Ben"⟩)], [("den", [epA, epB])], []⟩ : SState).rooms
        "den").getD []
    ∧ processValid okAll ⟨[(epB, ⟨epB, "Ben"⟩)], [("den", [epA, epB])], []⟩
        [("type", "room_msg"), ("room", "den"), ("from", "Ann"), ("text", "hi")] epA = none :=
  ⟨rfl, by decide, rfl⟩

/-- Claim C5 (amended): when the sender of `room_msg{room, text}` is a
member of the room *and is registered*, the packet `room_msg{room, text,
from}` is delivered to every member except the sender and the state is
unchanged; when the room is unknown or the sender is not a member, a `sys`
error goes back to the sender, nothing is delivered, and the state is
unchanged (all transport sends succeeding). -/
theorem C5_room_msg_delivery (ok : Endpoint → Bool) (s : SState) (pkt : Packet)
    (addr : Endpoint) (room : String)
    (hok : ∀ a, ok a = true)
    (ht : dictLookup pkt "type" = some ROOM_MSG)
    (hroom : dictLookup pkt "room" = some room) :
    (∀ ms c, dictLookup s.rooms room = some ms → addr ∈ ms →
      dictLookup s.clients addr = some c →
      processValid ok s pkt addr =
        some (s, (ms.filter (fun m => !decide (m = addr))).map
          (fun m => (mkPacketRec ROOM_MSG
            [("room", room), ("text", (dictLookup pkt "text").getD ""), ("from", c.name)],
            m))))
    ∧ (dictLookup s.rooms room = none ∨
        (∃ ms, dictLookup s.rooms room = some ms ∧ addr ∉ ms) →
      processValid ok s pkt addr =
        some (s, [(mkPacketRec SYSTEM_MSG [("text", notInRoomText)], addr)])) := by
  constructor
  · intro ms c hms hmem hreg
    rw [processValid_roomMsg ok s pkt addr ht,
      handleRoomMsg_success ok s pkt addr room ms c hroom hms hmem hreg,
      sendToAll_all_ok ok _ (some addr) ms s (fun a _ => hok a)]
    have hfc : ms.filter (fun m => !decide ((some addr : Option Endpoint) = some m))
        = ms.filter (fun m => !decide (m = addr)) := by
      apply List.filter_congr
      intro b hb
      simp [eq_comm]
    rw [hfc]
  · intro hfail
    rw [processValid_roomMsg ok s pkt addr ht,
      handleRoomMsg_fail ok s pkt addr room hroom hfail]
    simp [sendStep, hok addr]

/-- Witness for the amended C5: registered member sender, two-member room. -/
theorem C5_witness :
    processValid okAll ⟨[(epA, ⟨epA, "Ann"⟩), (epB, ⟨epB, "Ben"⟩)], [("den", [epA, epB])], []⟩
        [("type", "room_msg"), ("room", "den"), ("from", "Ann"), ("text", "hi")] epA =
      some (⟨[(epA, ⟨epA, "Ann"⟩), (epB, ⟨epB, "Ben"⟩)], [("den", [epA, epB])], []⟩,
        (([epA, epB].filter (fun m => !decide (m = epA))).map
          (fun m => (mkPacketRec ROOM_MSG
            [("room", "den"),
             ("text", (dictLookup [("type", "room_msg"), ("room", "den"), ("from", "Ann"),
               ("text", "hi")] "text").getD ""), ("from", "Ann")], m)))) :=
  (C5_room_msg_delivery okAll
    ⟨[(epA, ⟨epA, "Ann"⟩), (epB, ⟨epB, "Ben"⟩)], [("den", [epA, epB])], []⟩
    [("type", "room_msg"), ("room", "den"), ("from", "Ann"), ("text", "hi")] epA "den"
    (fun _ => rfl) (by decide) (by decide)).1
    [epA, epB] ⟨epA, "Ann"⟩ (by decide) (by decide) (by decide)

theorem handleInvite_success (ok : Endpoint → Bool) (s : SState) (pkt : Packet)
    (addr : Endpoint) (room : String) (ms : List Endpoint) (ta : Endpoint)
    (tc : ClientInfo) (c : ClientInfo)
    (hroom : dictLookup pkt "room" = some room)
    (hms : dictLookup s.rooms room = some ms)
    (hmem : addr ∈ ms)
    (hfind : s.clients.find? (fun p => some p.2.name = dictLookup pkt "to") = some (ta, tc))
    (hreg : dictLookup s.clients addr = some c) :
    handleInvite ok s pkt addr =
      some (sendStep ok
        (mkPacketRec INVITE
          [("room", room), ("from", c.name), ("to", (dictLookup pkt "to").getD "")])
        ta
        { s with pending :=
                   dictSet s.pending ta
                     (setAdd ((dictLookup s.pending ta).getD []) room) }) := by
  simp [handleInvite, hroom, hms, hmem, hfind, hreg]

theorem handleInvite_no_target (ok : Endpoint → Bool) (s : SState) (pkt : Packet)
    (addr : Endpoint) (room : String) (ms : List Endpoint)
    (hroom : dictLookup pkt "room" = some room)
    (hms : dictLookup s.rooms room = some ms)
    (hmem : addr ∈ ms)
    (hfind : s.clients.find? (fun p => some p.2.name = dictLookup pkt "to") = none) :
    handleInvite ok s pkt addr =
      some (sendStep ok (mkPacketRec SYSTEM_MSG [("text", userNotFoundText)]) addr s) := by
  simp [handleInvite, hroom, hms, hmem, hfind]

theorem handleInvite_not_member (ok : Endpoint → Bool) (s : SState) (pkt : Packet)
    (addr : Endpoint) (room : String)
    (hroom : dictLookup pkt "room" = some room)
    (hfail : dictLookup s.rooms room = none ∨
      ∃ ms, dictLookup s.rooms room = some ms ∧ addr ∉ ms) :
    handleInvite ok s pkt addr =
      some (sendStep ok (mkPacketRec SYSTEM_MSG [("text", notInRoomText)]) addr s) := by
  rcases hfail with h | ⟨ms, h1, h2⟩
  · simp [handleInvite, hroom, h]
  · simp [handleInvite, hroom, h1, h2]

/-- Claim C6 counterexample: the room exists, the sender `epA` is one of its
members, and a registered client is named `Ben` — the claim's three
conditions hold — but `epA` itself has no `ClientInfo` (reachable via
invite, disconnect, accept), so `_handle_invite` raises on
`self.clients[addr]` (`none`) after mutating the pending table: no
`invite{room, from}` packet is sent to the target and the router loop
terminates, not the promised recorded-and-notified outcome. -/
theorem C6_counterexample :
    validatePacket [("type", "invite"), ("room", "den"), ("from", "Ann"), ("to", "Ben")] = true
    ∧ dictLookup (⟨[(epB, ⟨epB, "Ben"⟩)], [("den", [epA])], []⟩ : SState).rooms "den"
      = some [epA]
    ∧ epA ∈ [epA]
    ∧ (epB, (⟨epB, "Ben"⟩ : ClientInfo)) ∈
        (⟨[(epB, ⟨epB, "Ben"⟩)], [("den", [epA])], []⟩ : SState).clients
    ∧ processValid okAll ⟨[(epB, ⟨epB, "Ben"⟩)], [("den", [epA])], []⟩
        [("type", "invite"), ("room", "den"), ("from", "Ann"), ("to", "Ben")] epA = none :=
  ⟨rfl, rfl, by decide, by decide, rfl⟩

/-- Claim C6 (amended): for `invite{room=R, to=U}` from a *registered*
endpoint `E` (all transport sends succeeding): when `R` exists, `E` is a
member and the registry's first client named `U` is `(ta, tc)`, then `R` is
recorded in `ta`'s pending set and `invite{room, from, to}` is sent to
`ta`; when no registered client is named `U` (room and membership holding),
or when `R` does not exist or `E` is not a member, a `sys` error goes back
to `E` and the state — the pending table included — is unchanged. -/
theorem C6_invite (ok : Endpoint → Bool) (s : SState) (pkt : Packet)
    (addr : Endpoint) (room : String) (tn : String)
    (hok : ∀ a, ok a = true)
    (ht : dictLookup pkt "type" = some INVITE)
    (hroom : dictLookup pkt "room" = some room)
    (hto : dictLookup pkt "to" = some tn) :
    (∀ ms c ta tc, dictLookup s.rooms room = some ms → addr ∈ ms →
      dictLookup s.clients addr = some c →
      s.clients.find? (fun p => some p.2.name = dictLookup pkt "to") = some (ta, tc) →
      (ta, tc) ∈ s.clients ∧ tc.name = tn
      ∧ processValid ok s pkt addr =
          some ({ s with pending :=
                           dictSet s.pending ta
                             (setAdd ((dictLookup s.pending ta).getD []) room) },
            [(mkPacketRec INVITE [("room", room), ("from", c.name), ("to", tn)], ta)])
      ∧ room ∈ (dictLookup (dictSet s.pending ta
          (setAdd ((dictLookup s.pending ta).getD []) room)) ta).getD [])
    ∧ (∀ ms, dictLookup s.rooms room = some ms → addr ∈ ms →
        (∀ p ∈ s.clients, p.2.name ≠ tn) →
        processValid ok s pkt addr =
          some (s, [(mkPacketRec SYSTEM_MSG [("text", userNotFoundText)], addr)]))
    ∧ (dictLookup s.rooms room = none ∨
        (∃ ms, dictLookup s.rooms room = some ms ∧ addr ∉ ms) →
      processValid ok s pkt addr =
        some (s, [(mkPacketRec SYSTEM_MSG [("text", notInRoomText)], addr)])) := by
  refine ⟨?_, ?_, ?_⟩
  · intro ms c ta tc hms hmem hreg hfind
    have hmemc : (ta, tc) ∈ s.clients := List.mem_of_find?_eq_some hfind
    have hname : tc.name = tn := by
      have := List.find?_some hfind
      simp [hto] at this
      exact this
    refine ⟨hmemc, hname, ?_, ?_⟩
    · rw [processValid_invite ok s pkt addr ht,
        handleInvite_success ok s pkt addr room ms ta tc c hroom hms hmem hfind hreg]
      simp [sendStep, hok ta, hto]
    · simpa [dictLookup_dictSet_self] using
        setAdd_mem_self ((dictLookup s.pending ta).getD []) room
  · intro ms hms hmem hnone
    have hfind : s.clients.find? (fun p => some p.2.name = dictLookup pkt "to") = none := by
      rw [List.find?_eq_none]
      intro p hp
      simp [hto]
      exact hnone p hp
    rw [processValid_invite ok s pkt addr ht,
      handleInvite_no_target ok s pkt addr room ms hroom hms hmem hfind]
    simp [sendStep, hok addr]
  · intro hfail
    rw [processValid_invite ok s pkt addr ht,
      handleInvite_not_member ok s pkt addr room hroom hfail]
    simp [sendStep, hok addr]

/-- Witness for the amended C6: a registered member invites a registered
target by name. -/
theorem C6_witness :
    ((epB, (⟨epB, "Ben"⟩ : ClientInfo)) ∈
        (⟨[(epA, ⟨epA, "Ann"⟩), (epB, ⟨epB, "Ben"⟩)], [("den", [epA])], []⟩ : SState).clients
    ∧ (⟨epB, "Ben"⟩ : ClientInfo).name = "Ben"
    ∧ processValid okAll ⟨[(epA, ⟨epA, "Ann"⟩), (epB, ⟨epB, "Ben"⟩)], [("den", [epA])], []⟩
        [("type", "invite"), ("room", "den"), ("from", "Ann"), ("to", "Ben")] epA =
        some ({ (⟨[(epA, ⟨epA, "Ann"⟩), (epB, ⟨epB, "Ben"⟩)], [("den", [epA])], []⟩ : SState)
            with pending :=
                   dictSet
                     (⟨[(epA, ⟨epA, "Ann"⟩), (epB, ⟨epB, "Ben"⟩)], [("den", [epA])], []⟩
                       : SState).pending
                     epB (setAdd ((dictLookup
                       (⟨[(epA, ⟨epA, "Ann"⟩), (epB, ⟨epB, "Ben"⟩)], [("den", [epA])], []⟩
                         : SState).pending epB).getD []) "den") },
          [(mkPacketRec INVITE [("room", "den"), ("from", "Ann"), ("to", "Ben")], epB)])
    ∧ "den" ∈ (dictLookup (dictSet
        (⟨[(epA, ⟨epA, "Ann"⟩), (epB, ⟨epB, "Ben"⟩)], [("den", [epA])], []⟩ : SState).pending
        epB (setAdd ((dictLookup
          (⟨[(epA, ⟨epA, "Ann"⟩), (epB, ⟨epB, "Ben"⟩)], [("den", [epA])], []⟩
            : SState).pending epB).getD []) "den")) epB).getD []) :=
  (C6_invite okAll ⟨[(epA, ⟨epA, "Ann"⟩), (epB, ⟨epB, "Ben"⟩)], [("den", [epA])], []⟩
    [("type", "invite"), ("room", "den"), ("from", "Ann"), ("to", "Ben")] epA "den" "Ben"
    (fun _ => rfl) (by decide) (by decide) (by decide)).1
    [epA] ⟨epA, "Ann"⟩ epB ⟨epB, "Ben"⟩ (by decide) (by decide) (by decide) (by decide)

/- --- Codec lemmas: the parser undoes the serialiser. --- -/

theorem skipWs_not_ws {c : Char} (l : List Char) (h : isWsChar c = false) :
    skipWs (c :: l) = c :: l := by
  simp [skipWs, h]

theorem skipWs_spc (l : List Char) : skipWs (spc :: l) = skipWs l := by
  have h : isWsChar spc = true := by decide
  simp [skipWs, h]

theorem parseStrBody_escape : ∀ (cs : List Char) (rest : List Char),
    parseStrBody (cs.flatMap escChar ++ qc :: rest) = some (cs, rest)
  | [], rest => by
      have h : ([] : List Char).flatMap escChar ++ qc :: rest = qc :: rest := by simp
      rw [h, parseStrBody.eq_def]
      simp
  | c :: cs, rest => by
      have hbq : bsc ≠ qc := by decide
      by_cases hc : c = qc ∨ c = bsc
      · have hstream : ((c :: cs).flatMap escChar ++ qc :: rest)
            = bsc :: c :: (cs.flatMap escChar ++ qc :: rest) := by
          simp [escChar, hc]
        rw [hstream, parseStrBody.eq_def]
        simp [hbq, hc, parseStrBody_escape cs rest]
      · push_neg at hc
        have hstream : ((c :: cs).flatMap escChar ++ qc :: rest)
            = c :: (cs.flatMap escChar ++ qc :: rest) := by
          simp [escChar, hc.1, hc.2]
        rw [hstream, parseStrBody.eq_def]
        simp [hc.1, hc.2, parseStrBody_escape cs rest]

theorem parseStr_dumpStr (s : String) (rest : List Char) :
    parseStr (dumpStr s ++ rest) = some (s, rest) := by
  have h1 : dumpStr s ++ rest = qc :: (escStr s ++ qc :: rest) := by
    simp [dumpStr, List.append_assoc]
  have hqw : isWsChar qc = false := by decide
  rw [h1, parseStr, skipWs_not_ws _ hqw]
  simp [escStr, parseStrBody_escape s.data rest]

theorem parseStr_spc (l : List Char) : parseStr (spc :: l) = parseStr l := by
  rw [parseStr, parseStr, skipWs_spc]

theorem parsePairs_spc (fuel : Nat) (l : List Char) :
    parsePairs (fuel + 1) (spc :: l) = parsePairs (fuel + 1) l := by
  rw [parsePairs, parsePairs, parseStr_spc]

theorem parsePairs_dumpFields : ∀ (ps : Packet) (fuel : Nat) (rest : List Char),
    ps ≠ [] → ps.length ≤ fuel →
    parsePairs fuel (dumpFields ps ++ rbc :: rest) = some (ps, rest)
  | [], _, _, hne, _ => absurd rfl hne
  | [p], fuel, rest, _, hlen => by
      obtain ⟨k, v⟩ := p
      cases fuel with
      | zero => simp at hlen
      | succ f =>
          have hstream : dumpFields [(k, v)] ++ rbc :: rest
              = dumpStr k ++ (clc :: spc :: (dumpStr v ++ rbc :: rest)) := by
            simp [dumpFields, dumpPair, List.append_assoc]
          have hcw : isWsChar clc = false := by decide
          have hrw : isWsChar rbc = false := by decide
          have hrc : rbc ≠ cmc := by decide
          rw [hstream, parsePairs, parseStr_dumpStr]
          simp [skipWs_not_ws _ hcw, parseStr_spc, parseStr_dumpStr,
            skipWs_not_ws _ hrw, hrc]
  | p :: q :: qs, fuel, rest, _, hlen => by
      obtain ⟨k, v⟩ := p
      cases fuel with
      | zero => simp at hlen
      | succ f =>
          cases f with
          | zero => simp at hlen
          | succ f2 =>
              have hstream : dumpFields ((k, v) :: q :: qs) ++ rbc :: rest
                  = dumpStr k ++ (clc :: spc :: (dumpStr v ++
                      cmc :: spc :: (dumpFields (q :: qs) ++ rbc :: rest))) := by
                simp [dumpFields, dumpPair, List.append_assoc]
              have hcw : isWsChar clc = false := by decide
              have hmw : isWsChar cmc = false := by decide
              have hih := parsePairs_dumpFields (q :: qs) (f2 + 1) rest
                (by simp) (by simp at hlen ⊢; omega)
              rw [hstream, parsePairs, parseStr_dumpStr]
              simp [skipWs_not_ws _ hcw, parseStr_spc, parseStr_dumpStr,
                skipWs_not_ws _ hmw, parsePairs_spc, hih]

theorem dictSet_ne_nil {κ ν : Type} [DecidableEq κ] (d : List (κ × ν)) (k : κ) (v : ν) :
    dictSet d k v ≠ [] := by
  cases d with
  | nil => simp [dictSet]
  | cons p rest =>
      obtain ⟨k2, v2⟩ := p
      by_cases h : k2 = k <;> simp [dictSet, h]

theorem dumpFields_length : ∀ ps : Packet, ps.length ≤ (dumpFields ps).length
  | [] => by simp [dumpFields]
  | [p] => by
      simp [dumpFields, dumpPair, dumpStr]
  | p :: q :: qs => by
      have ih := dumpFields_length (q :: qs)
      simp only [dumpFields, dumpPair, dumpStr, List.length_cons, List.length_append] at ih ⊢
      omega

theorem dumpFields_cons_head (p : String × String) (ps : Packet) :
    ∃ y, dumpFields (p :: ps) = qc :: y := by
  cases ps with
  | nil =>
      refine ⟨escStr p.1 ++ [qc] ++ ([clc, spc] ++ dumpStr p.2), ?_⟩
      simp [dumpFields, dumpPair, dumpStr, List.append_assoc]
  | cons q qs =>
      refine ⟨escStr p.1 ++ [qc] ++ ([clc, spc] ++ dumpStr p.2 ++
        ([cmc, spc] ++ dumpFields (q :: qs))), ?_⟩
      simp [dumpFields, dumpPair, dumpStr, List.append_assoc]

theorem dictSet_append_not_mem {κ ν : Type} [DecidableEq κ] (d : List (κ × ν)) (k : κ) (v : ν)
    (h : k ∉ d.map Prod.fst) : dictSet d k v = d ++ [(k, v)] := by
  induction d with
  | nil => simp [dictSet]
  | cons p rest ih =>
      obtain ⟨k2, v2⟩ := p
      simp only [List.map_cons, List.mem_cons, not_or] at h
      have hne : ¬ k2 = k := fun hh => h.1 hh.symm
      simp [dictSet, hne, ih h.2]

theorem foldl_dictSet_id : ∀ (ps acc : Packet),
    (ps.map Prod.fst).Nodup →
    (∀ k ∈ ps.map Prod.fst, k ∉ acc.map Prod.fst) →
    ps.foldl (fun a p => dictSet a p.1 p.2) acc = acc ++ ps
  | [], acc, _, _ => by simp
  | (k, v) :: rest, acc, hn, hdisj => by
      simp only [List.map_cons, List.nodup_cons] at hn
      have hk : k ∉ acc.map Prod.fst := hdisj k (by simp)
      have hstep : dictSet acc k v = acc ++ [(k, v)] := dictSet_append_not_mem acc k v hk
      have hdisj2 : ∀ k2 ∈ rest.map Prod.fst, k2 ∉ (acc ++ [(k, v)]).map Prod.fst := by
        intro k2 hk2
        simp only [List.map_append, List.mem_append]
        rintro (h1 | h1)
        · exact hdisj k2 (by simp [hk2]) h1
        · simp at h1
          exact hn.1 (h1 ▸ hk2)
      have ih := foldl_dictSet_id rest (acc ++ [(k, v)]) hn.2 hdisj2
      simp only [List.foldl_cons, hstep, ih, List.append_assoc, List.singleton_append,
        List.cons_append, List.nil_append]

theorem collapsePairs_nodup (ps : Packet) (hn : (ps.map Prod.fst).Nodup) :
    collapsePairs ps = ps := by
  have h := foldl_dictSet_id ps [] hn (by simp)
  simpa [collapsePairs] using h

theorem parse_jsonDumps (fields : Packet) (hne : fields ≠ [])
    (hn : (fields.map Prod.fst).Nodup) :
    parse_packet (jsonDumps fields) = some fields := by
  obtain ⟨p, ps, rfl⟩ : ∃ p ps, fields = p :: ps := by
    cases fields with
    | nil => exact absurd rfl hne
    | cons p ps => exact ⟨p, ps, rfl⟩
  obtain ⟨y, hy⟩ := dumpFields_cons_head p ps
  have hlw : isWsChar lbc = false := by decide
  have hqw : isWsChar qc = false := by decide
  have hql : qc ≠ lbc := by decide
  have hqr : qc ≠ rbc := by decide
  have hfuel : (p :: ps).length ≤ (jsonDumps (p :: ps)).length := by
    have h2 := dumpFields_length (p :: ps)
    simp only [List.length_cons] at h2
    simp only [jsonDumps, List.length_cons, List.length_append, List.length_singleton]
    omega
  have hpairs := parsePairs_dumpFields (p :: ps) ((jsonDumps (p :: ps)).length) []
    (by simp) hfuel
  rw [parse_packet]
  rw [show jsonDumps (p :: ps) = lbc :: (dumpFields (p :: ps) ++ [rbc]) from rfl]
  rw [skipWs_not_ws _ hlw]
  simp only [reduceIte]
  rw [hy]
  rw [show (qc :: y) ++ [rbc] = qc :: (y ++ [rbc]) from rfl]
  rw [skipWs_not_ws _ hqw]
  simp only [hqr, if_false]
  rw [show qc :: (y ++ [rbc]) = (qc :: y) ++ rbc :: [] from rfl, ← hy]
  rw [show (lbc :: (dumpFields (p :: ps) ++ [rbc])).length
    = (jsonDumps (p :: ps)).length from rfl]
  rw [hpairs]
  simp [skipWs, collapsePairs_nodup (p :: ps) hn]

/-- Claim C8: for every packet-type tag and every payload field map,
decoding the bytes produced by encoding yields exactly the payload record
extended with the `type` field set to the tag; and decoding, which is
`json.loads`, never fails on any encoder output (it fails exactly on the
inputs it cannot parse as a structured-text document). -/
theorem C8_codec_roundtrip (t : String) (payload : Packet)
    (hn : (payload.map Prod.fst).Nodup) :
    parse_packet (make_packet t payload) = some (mkPacketRec t payload)
    ∧ (∀ data : List Char, parse_packet data = none → data ≠ make_packet t payload) := by
  have hmain : parse_packet (make_packet t payload) = some (mkPacketRec t payload) :=
    parse_jsonDumps (mkPacketRec t payload) (dictSet_ne_nil payload "type" t)
      (keys_dictSet_nodup payload "type" t hn)
  refine ⟨hmain, fun data hd hcontra => ?_⟩
  rw [hcontra, hmain] at hd
  exact Option.noConfusion hd

/-- Witness for C8 at a concrete tag and payload (with quote and backslash
characters exercising the string escapes). -/
theorem C8_witness :
    parse_packet (make_packet "invite" [("room", "a\"b\\c"), ("from", "Ann"), ("to", "Ben")])
      = some (mkPacketRec "invite" [("room", "a\"b\\c"), ("from", "Ann"), ("to", "Ben")])
    ∧ (∀ data : List Char, parse_packet data = none →
        data ≠ make_packet "invite" [("room", "a\"b\\c"), ("from", "Ann"), ("to", "Ben")]) :=
  C8_codec_roundtrip "invite" [("room", "a\"b\\c"), ("from", "Ann"), ("to", "Ben")] (by decide)
